import Mathlib

/-!
Verification of the skeleton placeholder renderer
(`crates/egui/src/widgets/skeleton.rs`).

The renderer is embedded shallowly over exact rationals (`ℚ`): the Rust
source computes with `f32`/`f64`, but every arithmetic step it performs
(addition, multiplication by the constant `0.2 = 1/5`, clamping,
truncating remainder `%`) is modelled exactly on `ℚ`.  Rust's `%` on
floats is the truncating remainder (`a - b * trunc(a / b)`), embedded
here as `fRem`; Rust's `f32::clamp(lo, hi)` requires `lo ≤ hi` (it
panics otherwise), so theorems about clamped coordinates carry the
hypothesis `left ≤ right`.

Side effects of `Widget::ui` / `HasSkeleton::fill_ui` (painter pushes
and the interaction-rect allocation) are modelled by returning a
`RenderOutput` record holding the pushed shapes, the allocated rect and
the sense flag.
-/

/-- Truncation toward zero of a rational, as Rust `trunc` on floats. -/
def ratTrunc (x : ℚ) : ℤ := if 0 ≤ x then ⌊x⌋ else ⌈x⌉

/-- Rust `%` on floats: truncating remainder `a - b * trunc (a / b)`. -/
def fRem (a b : ℚ) : ℚ := a - b * ratTrunc (a / b)

/-- Rust `x.clamp(lo, hi)` on floats.  The Rust function requires
`lo ≤ hi` (it panics otherwise); this total model returns
`max lo (min x hi)`, which agrees with Rust whenever `lo ≤ hi`. -/
def fClamp (x lo hi : ℚ) : ℚ := max lo (min x hi)

/-- `egui::Pos2`. -/
structure Pos2 where
  x : ℚ
  y : ℚ
deriving DecidableEq, Repr

/-- `egui::Vec2`. -/
structure Vec2 where
  x : ℚ
  y : ℚ
deriving DecidableEq, Repr

/-- `egui::vec2`. -/
def vec2 (x y : ℚ) : Vec2 := ⟨x, y⟩

/-- `epaint::Rect` (axis-aligned rectangle, min = (left, top),
max = (right, bottom)). -/
structure Rect where
  left : ℚ
  top : ℚ
  right : ℚ
  bottom : ℚ
deriving DecidableEq, Repr

def Rect.width (r : Rect) : ℚ := r.right - r.left

def Rect.height (r : Rect) : ℚ := r.bottom - r.top

def Rect.center (r : Rect) : Pos2 := ⟨(r.left + r.right) / 2, (r.top + r.bottom) / 2⟩

/-- `Rect::from_center_size`. -/
def Rect.from_center_size (c : Pos2) (size : Vec2) : Rect :=
  ⟨c.x - size.x / 2, c.y - size.y / 2, c.x + size.x / 2, c.y + size.y / 2⟩

/-- `Rect::from_min_size`. -/
def Rect.from_min_size (min : Pos2) (size : Vec2) : Rect :=
  ⟨min.x, min.y, min.x + size.x, min.y + size.y⟩

/-- `egui::Color32` (RGBA, one byte per channel). -/
structure Color32 where
  r : ℕ
  g : ℕ
  b : ℕ
  a : ℕ
deriving DecidableEq, Repr

/-- `Color32::from_gray(v)`: opaque gray. -/
def Color32.from_gray (v : ℕ) : Color32 := ⟨v, v, v, 255⟩

/-- `Color32::TRANSPARENT`. -/
def Color32.TRANSPARENT : Color32 := ⟨0, 0, 0, 0⟩

/-- `epaint::Stroke`. -/
structure Stroke where
  width : ℚ
  color : Color32
deriving DecidableEq, Repr

/-- `Stroke::NONE`. -/
def Stroke.NONE : Stroke := ⟨0, Color32.TRANSPARENT⟩

/-- `Stroke::default()` (zero width, transparent). -/
def Stroke.default : Stroke := ⟨0, Color32.TRANSPARENT⟩

/-- `epaint::StrokeKind`. -/
inductive StrokeKind where
  | Inside
  | Middle
  | Outside
deriving DecidableEq, Repr

/-- `epaint::Vertex` (uv is always `Pos2::new(0.0, 0.0)` in this widget). -/
structure Vertex where
  pos : Pos2
  uv : Pos2
  color : Color32
deriving DecidableEq, Repr

/-- `epaint::Mesh`, restricted to the fields the widget touches. -/
structure Mesh where
  vertices : List Vertex
  indices : List ℕ
deriving DecidableEq, Repr

/-- `Mesh::default()`. -/
def Mesh.default : Mesh := ⟨[], []⟩

/-- `epaint::RectShape` as constructed by `RectShape::new`. -/
structure RectShape where
  rect : Rect
  rounding : ℚ
  fill : Color32
  stroke : Stroke
  stroke_kind : StrokeKind
deriving DecidableEq, Repr

/-- `epaint::CircleShape`. -/
structure CircleShape where
  center : Pos2
  radius : ℚ
  fill : Color32
  stroke : Stroke
deriving DecidableEq, Repr

/-- The `epaint::Shape` variants this widget emits. -/
inductive Shape where
  | mesh (m : Mesh)
  | rect (rs : RectShape)
  | circle (cs : CircleShape)
  | vec (shapes : List Shape)
deriving Repr

/-- `egui::Sense`, restricted to what the widget uses. -/
inductive Sense where
  | hover
  | click
deriving DecidableEq, Repr

/-- The observable effect of one widget render: the shapes pushed to the
painter (in order), plus the rect and sense passed to
`ui.allocate_rect`. -/
structure RenderOutput where
  shapes : List Shape
  allocated : Rect
  sense : Sense

/-- `SkeletonShapeType`. -/
inductive SkeletonShapeType where
  | Rectangle
  | Square
  | Circle
deriving DecidableEq, Repr

/-- The `Skeleton` widget struct. -/
structure Skeleton where
  base_color : Color32
  highlight_color : Color32
  animation_duration : ℚ
  shape_type : SkeletonShapeType

/-- `Skeleton::default()`. -/
def Skeleton.default : Skeleton :=
  { base_color := Color32.from_gray 200
    highlight_color := Color32.from_gray 230
    animation_duration := 3 / 2
    shape_type := SkeletonShapeType.Rectangle }

/-- `Skeleton::new()`. -/
def Skeleton.new : Skeleton := Skeleton.default

/-- The phase computation of the Rectangle branch:
`(time / self.animation_duration) % 1.0`. -/
def shimmer_phase (time animation_duration : ℚ) : ℚ :=
  fRem (time / animation_duration) 1

/-- `Widget::ui for Skeleton`, as a function of the skeleton value, the
available rect (`ui.available_rect_before_wrap()`) and the input time
(`ui.input().time`). -/
def skeletonUi (s : Skeleton) (available_rect : Rect) (time : ℚ) : RenderOutput :=
  match s.shape_type with
  | SkeletonShapeType.Rectangle =>
      let phase := shimmer_phase time s.animation_duration
      let shimmer_width := (1 / 5) * available_rect.width
      let shimmer_x := available_rect.left
        + phase * (available_rect.width + shimmer_width)
        - shimmer_width
      let x0 := available_rect.left
      let x1 := fClamp shimmer_x available_rect.left available_rect.right
      let x2 := fClamp (shimmer_x + shimmer_width) available_rect.left available_rect.right
      let x3 := available_rect.right
      let top := available_rect.top
      let bottom := available_rect.bottom
      let uv : Pos2 := ⟨0, 0⟩
      let mesh : Mesh :=
        { vertices :=
            [ ⟨⟨x0, top⟩, uv, s.base_color⟩
            , ⟨⟨x1, top⟩, uv, s.base_color⟩
            , ⟨⟨x2, top⟩, uv, s.highlight_color⟩
            , ⟨⟨x3, top⟩, uv, s.base_color⟩
            , ⟨⟨x0, bottom⟩, uv, s.base_color⟩
            , ⟨⟨x1, bottom⟩, uv, s.base_color⟩
            , ⟨⟨x2, bottom⟩, uv, s.highlight_color⟩
            , ⟨⟨x3, bottom⟩, uv, s.base_color⟩ ]
          indices := [0, 1, 5, 0, 5, 4] ++ [1, 2, 6, 1, 6, 5] ++ [2, 3, 7, 2, 7, 6] }
      { shapes := [Shape.mesh mesh]
        allocated := available_rect
        sense := Sense.hover }
  | SkeletonShapeType.Square =>
      let side := min available_rect.width available_rect.height
      let square_rect := Rect.from_center_size available_rect.center (vec2 side side)
      { shapes := [Shape.rect ⟨square_rect, 2, s.base_color, Stroke.NONE, StrokeKind.Outside⟩]
        allocated := available_rect
        sense := Sense.hover }
  | SkeletonShapeType.Circle =>
      let radius := (min available_rect.width available_rect.height) / 2
      { shapes := [Shape.circle ⟨available_rect.center, radius, s.base_color, Stroke.default⟩]
        allocated := available_rect
        sense := Sense.hover }

/-- The `while y + line_height <= rect.bottom` loop of
`HasSkeleton::fill_ui`, collecting the `line_rect`s in emission order
(`line_height = 16`, `gap = 4`). -/
def fillLineRects (rect : Rect) (y : ℚ) : List Rect :=
  if _h : y + 16 ≤ rect.bottom then
    Rect.from_min_size ⟨rect.left, y⟩ (vec2 rect.width 16) :: fillLineRects rect (y + 16 + 4)
  else
    []
termination_by (⌈rect.bottom - y⌉).toNat
decreasing_by
  have h16 : (16 : ℚ) ≤ rect.bottom - y := by linarith
  have hc : (16 : ℤ) ≤ ⌈rect.bottom - y⌉ := by
    exact_mod_cast le_trans h16 (Int.le_ceil _)
  have hstep : ⌈rect.bottom - (y + 16 + 4)⌉ = ⌈rect.bottom - y⌉ - 20 := by
    have : rect.bottom - (y + 16 + 4) = rect.bottom - y - (20 : ℤ) := by push_cast; ring
    rw [this, Int.ceil_sub_int]
  omega

/-- `HasSkeleton::fill_ui` (the trait's default body), as a function of
the target rect. -/
def fillUi (rect : Rect) : RenderOutput :=
  let shapes := (fillLineRects rect rect.top).map
    (fun line_rect =>
      Shape.rect ⟨line_rect, 2, Color32.from_gray 220, Stroke.NONE, StrokeKind.Outside⟩)
  { shapes := [Shape.vec shapes]
    allocated := rect
    sense := Sense.hover }

/-- Observer: the `i`-th vertex of the single mesh shape of an output,
if the output is a one-mesh output. -/
def meshVertex (out : RenderOutput) (i : ℕ) : Option Vertex :=
  match out.shapes with
  | [Shape.mesh m] => m.vertices[i]?
  | _ => none

/-- Observer: the x-coordinates of the four top-row vertices of the
single mesh shape of an output (the four vertical cut-lines). -/
def meshCutXs (out : RenderOutput) : Option (List ℚ) :=
  match out.shapes with
  | [Shape.mesh m] => some ((m.vertices.take 4).map (fun v => v.pos.x))
  | _ => none

theorem fRem_one_of_nonneg {x : ℚ} (h : 0 ≤ x) : fRem x 1 = Int.fract x := by
  unfold fRem ratTrunc
  rw [div_one, if_pos h, one_mul, Int.self_sub_floor]

theorem fRem_one_nonneg_lt_one {x : ℚ} (h : 0 ≤ x) : 0 ≤ fRem x 1 ∧ fRem x 1 < 1 := by
  rw [fRem_one_of_nonneg h]
  exact ⟨Int.fract_nonneg _, Int.fract_lt_one _⟩

theorem fRem_one_of_nonpos {x : ℚ} (h : x ≤ 0) : -1 < fRem x 1 ∧ fRem x 1 ≤ 0 := by
  rcases lt_or_eq_of_le h with hlt | heq
  · unfold fRem ratTrunc
    rw [div_one, if_neg (not_le.mpr hlt), one_mul]
    have h1 := Int.le_ceil x
    have h2 := Int.ceil_lt_add_one x
    constructor <;> linarith
  · rw [heq]
    norm_num [fRem, ratTrunc]

theorem fRem_one_add_nat {x : ℚ} (h : 0 ≤ x) (k : ℕ) : fRem (x + k) 1 = fRem x 1 := by
  rw [fRem_one_of_nonneg (by positivity), fRem_one_of_nonneg h, Int.fract_add_nat]

/-- The phase is in `[0, 1)` for non-negative time and positive period. -/
theorem shimmer_phase_range {t p : ℚ} (ht : 0 ≤ t) (hp : 0 < p) :
    0 ≤ shimmer_phase t p ∧ shimmer_phase t p < 1 :=
  fRem_one_nonneg_lt_one (div_nonneg ht hp.le)

/-- The phase is in `(-1, 0]` for non-negative time and negative period:
no clamping of the period to a positive value happens in the code. -/
theorem shimmer_phase_range_neg {t p : ℚ} (ht : 0 ≤ t) (hp : p < 0) :
    -1 < shimmer_phase t p ∧ shimmer_phase t p ≤ 0 :=
  fRem_one_of_nonpos (div_nonpos_of_nonneg_of_nonpos ht hp.le)

/-- One full period shifts the phase argument by an integer, leaving the
phase unchanged (for non-negative time and positive period). -/
theorem shimmer_phase_add_period {t p : ℚ} (ht : 0 ≤ t) (hp : 0 < p) (k : ℕ) :
    shimmer_phase (t + k * p) p = shimmer_phase t p := by
  unfold shimmer_phase
  rw [add_div, mul_div_assoc, div_self (ne_of_gt hp), mul_one,
    fRem_one_add_nat (div_nonneg ht hp.le)]

theorem le_fClamp (x lo hi : ℚ) : lo ≤ fClamp x lo hi := le_max_left _ _

theorem fClamp_le (x : ℚ) {lo hi : ℚ} (h : lo ≤ hi) : fClamp x lo hi ≤ hi :=
  max_le h (min_le_right _ _)

/-- Claim C3 (corrected: restricted to non-negative time): for every
non-negative time and positive animation period, the phase
`(time / period) % 1.0` computed by the Rectangle branch lies in
`[0, 1)`.  (For negative time, Rust `%` is a truncating remainder and
the phase lies in `(-1, 0]`; see the counterexample.) -/
theorem C3_phase_range (t p : ℚ) (ht : 0 ≤ t) (hp : 0 < p) :
    0 ≤ shimmer_phase t p ∧ shimmer_phase t p < 1 :=
  shimmer_phase_range ht hp

/-- Witness for C3 at `t = 3/4`, `p = 3/2`. -/
theorem C3_phase_range_witness :
    (0 : ℚ) ≤ 3 / 4 ∧ (0 : ℚ) < 3 / 2 ∧
      (0 ≤ shimmer_phase (3 / 4) (3 / 2) ∧ shimmer_phase (3 / 4) (3 / 2) < 1) :=
  ⟨by norm_num, by norm_num, C3_phase_range (3 / 4) (3 / 2) (by norm_num) (by norm_num)⟩

/-- Counterexample to C3 as stated: at time `-3/4` with period `3/2`
(the renderer is given the time unrestricted), the computed phase is
`-1/2`, which is not in `[0, 1)`. -/
theorem C3_counterexample :
    shimmer_phase (-(3 / 4)) (3 / 2) = -(1 / 2) ∧
      ¬ (0 ≤ shimmer_phase (-(3 / 4)) (3 / 2)) := by
  have h : shimmer_phase (-(3 / 4)) (3 / 2) = -(1 / 2) := by
    unfold shimmer_phase fRem ratTrunc
    norm_num
  rw [h]
  norm_num

/-- Claim C9 (confirmed): the renderer is a pure function of
(region, config, time): two calls with identical inputs produce
identical output geometry, for the widget render and the multi-line
fill alike. -/
theorem C9_determinism (s₁ s₂ : Skeleton) (r₁ r₂ : Rect) (t₁ t₂ : ℚ)
    (hs : s₁ = s₂) (hr : r₁ = r₂) (ht : t₁ = t₂) :
    skeletonUi s₁ r₁ t₁ = skeletonUi s₂ r₂ t₂ ∧ fillUi r₁ = fillUi r₂ := by
  subst hs hr ht
  exact ⟨rfl, rfl⟩

/-- Witness for C9 at a concrete input. -/
theorem C9_determinism_witness :
    Skeleton.new = Skeleton.new ∧ (⟨0, 0, 100, 20⟩ : Rect) = ⟨0, 0, 100, 20⟩ ∧
      (3 / 4 : ℚ) = 3 / 4 ∧
      (skeletonUi Skeleton.new ⟨0, 0, 100, 20⟩ (3 / 4) =
          skeletonUi Skeleton.new ⟨0, 0, 100, 20⟩ (3 / 4) ∧
        fillUi ⟨0, 0, 100, 20⟩ = fillUi ⟨0, 0, 100, 20⟩) :=
  ⟨rfl, rfl, rfl, C9_determinism _ _ _ _ _ _ rfl rfl rfl⟩

/-- Claim C10 (confirmed): every shape variant and the multi-line fill
claim the entire supplied region with hover-only sense, even though the
Square variant draws only a centered `side × side` rectangle with
`side = min(width, height)` and the Circle variant draws only a centered
circle of radius `min(width, height) / 2`. -/
theorem C10_interaction_rect (b hc : Color32) (d : ℚ) (rect : Rect) (t : ℚ) :
    (skeletonUi ⟨b, hc, d, SkeletonShapeType.Rectangle⟩ rect t).allocated = rect ∧
    (skeletonUi ⟨b, hc, d, SkeletonShapeType.Rectangle⟩ rect t).sense = Sense.hover ∧
    (skeletonUi ⟨b, hc, d, SkeletonShapeType.Square⟩ rect t).allocated = rect ∧
    (skeletonUi ⟨b, hc, d, SkeletonShapeType.Square⟩ rect t).sense = Sense.hover ∧
    (skeletonUi ⟨b, hc, d, SkeletonShapeType.Circle⟩ rect t).allocated = rect ∧
    (skeletonUi ⟨b, hc, d, SkeletonShapeType.Circle⟩ rect t).sense = Sense.hover ∧
    (fillUi rect).allocated = rect ∧
    (fillUi rect).sense = Sense.hover ∧
    (skeletonUi ⟨b, hc, d, SkeletonShapeType.Square⟩ rect t).shapes =
      [Shape.rect ⟨Rect.from_center_size rect.center
          (vec2 (min rect.width rect.height) (min rect.width rect.height)),
        2, b, Stroke.NONE, StrokeKind.Outside⟩] ∧
    (skeletonUi ⟨b, hc, d, SkeletonShapeType.Circle⟩ rect t).shapes =
      [Shape.circle ⟨rect.center, (min rect.width rect.height) / 2, b, Stroke.default⟩] :=
  ⟨rfl, rfl, rfl, rfl, rfl, rfl, rfl, rfl, rfl, rfl⟩

/-- Claim C1 (corrected): the Rectangle branch emits one strip mesh with
two vertices (top, bottom) at each of the four cut-lines `left`, `x1`,
`x2`, `right`, triangulated as three quads (six triangles) spanning
left→x1, x1→x2, x2→right — but in the source only the `x2` vertices
carry `highlight_color`; the vertices at the inner cut-line `x1` carry
`base_color` (the spec says both inner cut-lines carry
`highlight_color`). -/
theorem C1_mesh_structure (b hc : Color32) (d : ℚ) (rect : Rect) (t : ℚ) :
    (skeletonUi ⟨b, hc, d, SkeletonShapeType.Rectangle⟩ rect t).shapes =
      [Shape.mesh
        { vertices :=
            [ ⟨⟨rect.left, rect.top⟩, ⟨0, 0⟩, b⟩
            , ⟨⟨fClamp (rect.left + shimmer_phase t d * (rect.width + 1 / 5 * rect.width)
                  - 1 / 5 * rect.width) rect.left rect.right, rect.top⟩, ⟨0, 0⟩, b⟩
            , ⟨⟨fClamp (rect.left + shimmer_phase t d * (rect.width + 1 / 5 * rect.width)
                  - 1 / 5 * rect.width + 1 / 5 * rect.width) rect.left rect.right,
                rect.top⟩, ⟨0, 0⟩, hc⟩
            , ⟨⟨rect.right, rect.top⟩, ⟨0, 0⟩, b⟩
            , ⟨⟨rect.left, rect.bottom⟩, ⟨0, 0⟩, b⟩
            , ⟨⟨fClamp (rect.left + shimmer_phase t d * (rect.width + 1 / 5 * rect.width)
                  - 1 / 5 * rect.width) rect.left rect.right, rect.bottom⟩, ⟨0, 0⟩, b⟩
            , ⟨⟨fClamp (rect.left + shimmer_phase t d * (rect.width + 1 / 5 * rect.width)
                  - 1 / 5 * rect.width + 1 / 5 * rect.width) rect.left rect.right,
                rect.bottom⟩, ⟨0, 0⟩, hc⟩
            , ⟨⟨rect.right, rect.bottom⟩, ⟨0, 0⟩, b⟩ ]
          indices := [0, 1, 5, 0, 5, 4] ++ [1, 2, 6, 1, 6, 5] ++ [2, 3, 7, 2, 7, 6] }] :=
  rfl

/-- Counterexample to C1 as stated: at region `(0,0)-(50,10)`,
`t = 3/8`, default colors, the cut-lines are `0, 5, 15, 50`; the two
vertices at the inner cut-line `x1 = 5` carry the base color (gray 200),
not the highlight color (gray 230). -/
theorem C1_counterexample :
    meshVertex (skeletonUi Skeleton.new ⟨0, 0, 50, 10⟩ (3 / 8)) 1 =
        some ⟨⟨5, 0⟩, ⟨0, 0⟩, Color32.from_gray 200⟩ ∧
      meshVertex (skeletonUi Skeleton.new ⟨0, 0, 50, 10⟩ (3 / 8)) 5 =
        some ⟨⟨5, 10⟩, ⟨0, 0⟩, Color32.from_gray 200⟩ ∧
      Skeleton.new.highlight_color ≠ Color32.from_gray 200 := by
  have hφ : shimmer_phase (3 / 8) (3 / 2) = 1 / 4 := by
    unfold shimmer_phase fRem ratTrunc
    norm_num
  refine ⟨?_, ?_, ?_⟩
  · simp only [skeletonUi, Skeleton.new, Skeleton.default, meshVertex, hφ]
    norm_num [fClamp, Rect.width, min_def, max_def, Color32.from_gray]
  · simp only [skeletonUi, Skeleton.new, Skeleton.default, meshVertex, hφ]
    norm_num [fClamp, Rect.width, min_def, max_def, Color32.from_gray]
  · simp [Skeleton.new, Skeleton.default, Color32.from_gray]

/-- Claim C2 (corrected): for every region and time the band width is
`w_h = (1/5) × width`, the band's left edge is
`x_shimmer = left + φ × (width + w_h) − w_h`, and the cut-lines are
`left, clamp(x_shimmer), clamp(x_shimmer + w_h), right`; at the spec's
example (width 100, period 3/2, t = 3/4) the phase is 1/2 and the
cut-lines are 0, 40, 60, 100 — but the middle segment is colored
`highlight_color` only at its right cut-line `x2 = 60`; its left
cut-line `x1 = 40` carries `base_color`. -/
theorem C2_cut_lines (b hc : Color32) (d : ℚ) (rect : Rect) (t : ℚ) :
    meshCutXs (skeletonUi ⟨b, hc, d, SkeletonShapeType.Rectangle⟩ rect t) =
      some [rect.left,
        fClamp (rect.left + shimmer_phase t d * (rect.width + 1 / 5 * rect.width)
          - 1 / 5 * rect.width) rect.left rect.right,
        fClamp (rect.left + shimmer_phase t d * (rect.width + 1 / 5 * rect.width)
          - 1 / 5 * rect.width + 1 / 5 * rect.width) rect.left rect.right,
        rect.right] ∧
    shimmer_phase (3 / 4) (3 / 2) = 1 / 2 ∧
    meshCutXs (skeletonUi ⟨b, hc, 3 / 2, SkeletonShapeType.Rectangle⟩ ⟨0, 0, 100, 20⟩ (3 / 4)) =
      some [0, 40, 60, 100] ∧
    meshVertex (skeletonUi ⟨b, hc, 3 / 2, SkeletonShapeType.Rectangle⟩ ⟨0, 0, 100, 20⟩ (3 / 4)) 2 =
      some ⟨⟨60, 0⟩, ⟨0, 0⟩, hc⟩ := by
  have hφ : shimmer_phase (3 / 4) (3 / 2) = 1 / 2 := by
    unfold shimmer_phase fRem ratTrunc
    norm_num
  refine ⟨rfl, hφ, ?_, ?_⟩
  · simp only [skeletonUi, meshCutXs, hφ]
    norm_num [fClamp, Rect.width, min_def, max_def]
  · simp only [skeletonUi, meshVertex, hφ]
    norm_num [fClamp, Rect.width, min_def, max_def]

/-- Counterexample to C2 as stated: at the spec's own example the middle
segment (between cut-lines 40 and 60) is not uniformly
`highlight_color`: its left cut-line vertex (index 1, at x = 40) carries
the base color (gray 200), which differs from the highlight color
(gray 230). -/
theorem C2_counterexample :
    meshCutXs (skeletonUi Skeleton.new ⟨0, 0, 100, 20⟩ (3 / 4)) = some [0, 40, 60, 100] ∧
      meshVertex (skeletonUi Skeleton.new ⟨0, 0, 100, 20⟩ (3 / 4)) 1 =
        some ⟨⟨40, 0⟩, ⟨0, 0⟩, Color32.from_gray 200⟩ ∧
      Color32.from_gray 200 ≠ Skeleton.new.highlight_color := by
  have hφ : shimmer_phase (3 / 4) (3 / 2) = 1 / 2 := by
    unfold shimmer_phase fRem ratTrunc
    norm_num
  refine ⟨?_, ?_, ?_⟩
  · simp only [skeletonUi, Skeleton.new, Skeleton.default, meshCutXs, hφ]
    norm_num [fClamp, Rect.width, min_def, max_def]
  · simp only [skeletonUi, Skeleton.new, Skeleton.default, meshVertex, hφ]
    norm_num [fClamp, Rect.width, min_def, max_def, Color32.from_gray]
  · simp [Skeleton.new, Skeleton.default, Color32.from_gray]

/-- Claim C6 (corrected): a degenerate region (width = 0 or height = 0)
does not make the renderer fail: it claims exactly the degenerate
(zero-size) region with hover sense — but it does not special-case
degeneracy, so it still emits its one primitive (with degenerate
geometry) rather than an empty output. -/
theorem C6_degenerate (s : Skeleton) (rect : Rect) (t : ℚ)
    (_hdeg : rect.width = 0 ∨ rect.height = 0) :
    (skeletonUi s rect t).allocated = rect ∧
      (skeletonUi s rect t).sense = Sense.hover ∧
      (skeletonUi s rect t).shapes.length = 1 := by
  obtain ⟨b, hc, d, st⟩ := s
  cases st <;> exact ⟨rfl, rfl, rfl⟩

/-- Witness for C6 at the zero-width region `(0,0)-(0,20)`. -/
theorem C6_degenerate_witness :
    (Rect.width ⟨0, 0, 0, 20⟩ = 0 ∨ Rect.height ⟨0, 0, 0, 20⟩ = 0) ∧
      ((skeletonUi Skeleton.new ⟨0, 0, 0, 20⟩ 0).allocated = ⟨0, 0, 0, 20⟩ ∧
        (skeletonUi Skeleton.new ⟨0, 0, 0, 20⟩ 0).sense = Sense.hover ∧
        (skeletonUi Skeleton.new ⟨0, 0, 0, 20⟩ 0).shapes.length = 1) :=
  ⟨Or.inl (by norm_num [Rect.width]),
    C6_degenerate Skeleton.new ⟨0, 0, 0, 20⟩ 0 (Or.inl (by norm_num [Rect.width]))⟩

/-- Counterexample to C6 as stated: for the degenerate region
`(0,0)-(0,20)` (width 0) the renderer does not produce an empty output:
it still pushes one (degenerate) mesh primitive to the painter. -/
theorem C6_counterexample :
    Rect.width ⟨0, 0, 0, 20⟩ = 0 ∧
      (skeletonUi Skeleton.new ⟨0, 0, 0, 20⟩ 0).shapes ≠ [] := by
  refine ⟨by norm_num [Rect.width], ?_⟩
  simp [skeletonUi, Skeleton.new, Skeleton.default]

/-- Claim C7 (corrected): the code enforces no policy for a non-positive
`animation_period`: the period is used unvalidated (the widget has no
error channel, so no `InvalidConfig` is signalled, and no clamping to a
positive epsilon occurs).  With a negative period and non-negative time
the phase lies in `(-1, 0]` — outside the `[0, 1)` range that any
positive (clamped) period would produce — and the mesh is emitted
regardless. -/
theorem C7_no_policy (s : Skeleton) (rect : Rect) (t : ℚ)
    (ht : 0 ≤ t) (hp : s.animation_duration < 0) :
    (skeletonUi s rect t).shapes.length = 1 ∧
      -1 < shimmer_phase t s.animation_duration ∧
      shimmer_phase t s.animation_duration ≤ 0 := by
  refine ⟨?_, shimmer_phase_range_neg ht hp⟩
  obtain ⟨b, hc, d, st⟩ := s
  cases st <;> rfl

/-- Witness for C7 at `t = 3/4`, period `-3/2`. -/
theorem C7_no_policy_witness :
    (0 : ℚ) ≤ 3 / 4 ∧
      (Skeleton.mk (Color32.from_gray 200) (Color32.from_gray 230) (-(3 / 2))
          SkeletonShapeType.Rectangle).animation_duration < 0 ∧
      ((skeletonUi ⟨Color32.from_gray 200, Color32.from_gray 230, -(3 / 2),
            SkeletonShapeType.Rectangle⟩ ⟨0, 0, 100, 20⟩ (3 / 4)).shapes.length = 1 ∧
        -1 < shimmer_phase (3 / 4) (-(3 / 2)) ∧
        shimmer_phase (3 / 4) (-(3 / 2)) ≤ 0) :=
  ⟨by norm_num, by norm_num,
    C7_no_policy ⟨Color32.from_gray 200, Color32.from_gray 230, -(3 / 2),
        SkeletonShapeType.Rectangle⟩ ⟨0, 0, 100, 20⟩ (3 / 4) (by norm_num) (by norm_num)⟩

/-- Counterexample to C7 as stated: with period `-3/2` and time `3/4`
the renderer neither rejects nor clamps: it emits the mesh as usual, and
the phase it uses is `-1/2`, which is negative — impossible under a
clamp-to-positive-epsilon policy (which with non-negative time always
yields a phase in `[0, 1)`). -/
theorem C7_counterexample :
    shimmer_phase (3 / 4) (-(3 / 2)) = -(1 / 2) ∧
      ¬ (0 ≤ shimmer_phase (3 / 4) (-(3 / 2))) ∧
      (skeletonUi ⟨Color32.from_gray 200, Color32.from_gray 230, -(3 / 2),
          SkeletonShapeType.Rectangle⟩ ⟨0, 0, 100, 20⟩ (3 / 4)).shapes.length = 1 := by
  have h : shimmer_phase (3 / 4) (-(3 / 2)) = -(1 / 2) := by
    unfold shimmer_phase fRem ratTrunc
    norm_num
  exact ⟨h, by rw [h]; norm_num, rfl⟩

/-- Claim C8 (confirmed): for non-negative time, positive period and any
natural `k`, rendering at `t + k · period` produces geometry identical
to rendering at `t` (the phase is periodic, and the other branches do
not depend on time at all). -/
theorem C8_periodicity (s : Skeleton) (rect : Rect) (t : ℚ) (k : ℕ)
    (ht : 0 ≤ t) (hp : 0 < s.animation_duration) :
    skeletonUi s rect (t + k * s.animation_duration) = skeletonUi s rect t := by
  obtain ⟨b, hc, d, st⟩ := s
  have hφ := shimmer_phase_add_period ht hp k
  cases st
  · simp only [skeletonUi, hφ]
  · rfl
  · rfl

/-- Witness for C8 at `t = 3/4`, `k = 2`, default period `3/2`. -/
theorem C8_periodicity_witness :
    (0 : ℚ) ≤ 3 / 4 ∧ 0 < Skeleton.new.animation_duration ∧
      skeletonUi Skeleton.new ⟨0, 0, 100, 20⟩
          (3 / 4 + ((2 : ℕ) : ℚ) * Skeleton.new.animation_duration) =
        skeletonUi Skeleton.new ⟨0, 0, 100, 20⟩ (3 / 4) :=
  ⟨by norm_num, by norm_num [Skeleton.new, Skeleton.default],
    C8_periodicity Skeleton.new ⟨0, 0, 100, 20⟩ (3 / 4) 2 (by norm_num)
      (by norm_num [Skeleton.new, Skeleton.default])⟩

/-- The fill loop emits exactly the lines `top + 20·i` for
`i < ⌊(bottom − y + 4) / 20⌋`, each of the region's width and height 16. -/
theorem fillLineRects_eq (rect : Rect) (y : ℚ) :
    fillLineRects rect y =
      (List.range (⌊(rect.bottom - y + 4) / 20⌋).toNat).map
        (fun i : ℕ => Rect.from_min_size ⟨rect.left, y + 20 * (i : ℚ)⟩ (vec2 rect.width 16)) := by
  rw [fillLineRects]
  split
  next h =>
    rw [fillLineRects_eq rect (y + 16 + 4)]
    have h20 : (1 : ℤ) ≤ ⌊(rect.bottom - y + 4) / 20⌋ := by
      rw [Int.le_floor]
      push_cast
      rw [le_div_iff₀ (by norm_num : (0 : ℚ) < 20)]
      linarith
    have hsub : ⌊(rect.bottom - (y + 16 + 4) + 4) / 20⌋ = ⌊(rect.bottom - y + 4) / 20⌋ - 1 := by
      have e : (rect.bottom - (y + 16 + 4) + 4) / 20 = (rect.bottom - y + 4) / 20 - ((1 : ℤ) : ℚ) := by
        push_cast
        ring
      rw [e, Int.floor_sub_int]
    rw [hsub]
    obtain ⟨m, hm⟩ : ∃ m : ℕ, (⌊(rect.bottom - y + 4) / 20⌋).toNat = m + 1 :=
      ⟨(⌊(rect.bottom - y + 4) / 20⌋ - 1).toNat, by omega⟩
    rw [hm, show (⌊(rect.bottom - y + 4) / 20⌋ - 1).toNat = m by omega,
      List.range_succ_eq_map, List.map_cons, List.map_map]
    refine congrArg₂ List.cons ?_ ?_
    · simp [Rect.from_min_size, vec2]
    · refine List.map_congr_left ?_
      intro i _
      simp only [Function.comp, Rect.from_min_size, vec2, Rect.mk.injEq]
      refine ⟨trivial, by push_cast; ring, trivial, by push_cast; ring⟩
  next h =>
    have hlt : ⌊(rect.bottom - y + 4) / 20⌋ < 1 := by
      rw [Int.floor_lt]
      push_cast
      rw [div_lt_one (by norm_num : (0 : ℚ) < 20)]
      linarith
    rw [show (⌊(rect.bottom - y + 4) / 20⌋).toNat = 0 by omega]
    simp
termination_by (⌈rect.bottom - y⌉).toNat
decreasing_by
  have h16 : (16 : ℚ) ≤ rect.bottom - y := by linarith
  have hc : (16 : ℤ) ≤ ⌈rect.bottom - y⌉ := by
    exact_mod_cast le_trans h16 (Int.le_ceil _)
  have hstep : ⌈rect.bottom - (y + 16 + 4)⌉ = ⌈rect.bottom - y⌉ - 20 := by
    have e2 : rect.bottom - (y + 16 + 4) = rect.bottom - y - (20 : ℤ) := by push_cast; ring
    rw [e2, Int.ceil_sub_int]
  omega

/-- Every line the fill loop emits spans the region's full width, starts
at or below the loop's start `rect.top`, and ends at or above its own
top by exactly 16, without crossing `rect.bottom`. -/
theorem fillLineRects_bounds (rect : Rect) (lr : Rect)
    (h : lr ∈ fillLineRects rect rect.top) :
    lr.left = rect.left ∧ lr.right = rect.right ∧
      rect.top ≤ lr.top ∧ lr.bottom = lr.top + 16 ∧ lr.bottom ≤ rect.bottom := by
  rw [fillLineRects_eq] at h
  obtain ⟨i, hi, rfl⟩ := List.mem_map.mp h
  rw [List.mem_range, Int.lt_toNat] at hi
  have hfl : ((i : ℤ) + 1 : ℚ) ≤ (rect.bottom - rect.top + 4) / 20 := by
    have h1 : (i : ℤ) + 1 ≤ ⌊(rect.bottom - rect.top + 4) / 20⌋ := by omega
    calc ((i : ℤ) + 1 : ℚ) ≤ (⌊(rect.bottom - rect.top + 4) / 20⌋ : ℚ) := by exact_mod_cast h1
      _ ≤ (rect.bottom - rect.top + 4) / 20 := Int.floor_le _
  have hbound : rect.top + 20 * (i : ℚ) + 16 ≤ rect.bottom := by
    have h2 := (le_div_iff₀ (by norm_num : (0 : ℚ) < 20)).mp hfl
    push_cast at h2
    linarith
  refine ⟨rfl, ?_, ?_, rfl, ?_⟩
  · simp only [Rect.from_min_size, vec2, Rect.width]
    ring
  · have h0 : (0 : ℚ) ≤ 20 * (i : ℚ) := by positivity
    simp only [Rect.from_min_size]
    linarith
  · simpa only [Rect.from_min_size, vec2] using hbound

/-- Claim C5 (confirmed): for a region of height `H ≥ 0` the default
multi-line fill emits exactly `⌊(H + gap) / (line_height + gap)⌋` line
rectangles (`line_height = 16`, `gap = 4`), tiled from the region's top
downward at `top + 20·i`, and no emitted line's bottom edge exceeds
`region.bottom`. -/
theorem C5_fill_lines (rect : Rect) (hH : 0 ≤ rect.height) :
    ((fillLineRects rect rect.top).length : ℤ) = ⌊(rect.height + 4) / 20⌋ ∧
      fillLineRects rect rect.top =
        (List.range (fillLineRects rect rect.top).length).map
          (fun i : ℕ =>
            Rect.from_min_size ⟨rect.left, rect.top + 20 * (i : ℚ)⟩ (vec2 rect.width 16)) ∧
      (∀ lr ∈ fillLineRects rect rect.top, lr.bottom ≤ rect.bottom) ∧
      (fillUi rect).shapes =
        [Shape.vec ((fillLineRects rect rect.top).map
          (fun line_rect =>
            Shape.rect ⟨line_rect, 2, Color32.from_gray 220, Stroke.NONE,
              StrokeKind.Outside⟩))] := by
  have hH' : (0 : ℚ) ≤ rect.bottom - rect.top := hH
  have hlen : (fillLineRects rect rect.top).length =
      (⌊(rect.bottom - rect.top + 4) / 20⌋).toNat := by
    rw [fillLineRects_eq, List.length_map, List.length_range]
  refine ⟨?_, ?_, ?_, rfl⟩
  · rw [hlen, Int.toNat_of_nonneg]
    · simp only [Rect.height]
    · exact Int.floor_nonneg.mpr (by positivity)
  · rw [hlen]
    exact fillLineRects_eq rect rect.top
  · intro lr hmem
    exact (fillLineRects_bounds rect lr hmem).2.2.2.2

/-- Witness for C5 at the region `(0,0)-(100,40)`: height 40, hence
exactly `⌊44 / 20⌋ = 2` lines. -/
theorem C5_fill_lines_witness :
    (0 : ℚ) ≤ Rect.height ⟨0, 0, 100, 40⟩ ∧
      ((fillLineRects ⟨0, 0, 100, 40⟩ (Rect.top ⟨0, 0, 100, 40⟩)).length : ℤ) =
        ⌊(Rect.height ⟨0, 0, 100, 40⟩ + 4) / 20⌋ ∧
      ⌊(Rect.height ⟨0, 0, 100, 40⟩ + 4) / 20⌋ = 2 :=
  ⟨by norm_num [Rect.height],
    (C5_fill_lines ⟨0, 0, 100, 40⟩ (by norm_num [Rect.height])).1,
    by norm_num [Rect.height]⟩

/-- A point lies inside (or on the border of) a rect. -/
def posIn (p : Pos2) (r : Rect) : Bool :=
  decide (r.left ≤ p.x) && decide (p.x ≤ r.right) &&
    decide (r.top ≤ p.y) && decide (p.y ≤ r.bottom)

/-- A rect lies inside (or on the border of) another rect. -/
def rectIn (inner outer : Rect) : Bool :=
  decide (outer.left ≤ inner.left) && decide (inner.right ≤ outer.right) &&
    decide (outer.top ≤ inner.top) && decide (inner.bottom ≤ outer.bottom)

mutual

/-- All coordinates of a shape lie inside a rect (for a circle: its
bounding box does). -/
def shapeIn (r : Rect) : Shape → Bool
  | Shape.mesh m => m.vertices.all (fun v => posIn v.pos r)
  | Shape.rect rs => rectIn rs.rect r
  | Shape.circle cs =>
      posIn ⟨cs.center.x - cs.radius, cs.center.y - cs.radius⟩ r &&
        posIn ⟨cs.center.x + cs.radius, cs.center.y + cs.radius⟩ r
  | Shape.vec ss => shapesIn r ss

/-- All coordinates of every shape in a list lie inside a rect. -/
def shapesIn (r : Rect) : List Shape → Bool
  | [] => true
  | s :: ss => shapeIn r s && shapesIn r ss

end

theorem shapesIn_eq_true {r : Rect} {ss : List Shape} :
    shapesIn r ss = true ↔ ∀ s ∈ ss, shapeIn r s = true := by
  induction ss with
  | nil => simp [shapesIn]
  | cons a l ih => simp [shapesIn, ih]

/-- Claim C4 (corrected): for every non-degenerate region every emitted
primitive has all its coordinates within
`[region.left, region.right] × [region.top, region.bottom]` — but the
claim's second half fails: primitives of zero extent can be emitted
(the outer shimmer quads collapse when the band touches a region edge;
see the counterexample). -/
theorem C4_containment (s : Skeleton) (rect : Rect) (t : ℚ)
    (hlr : rect.left ≤ rect.right) (htb : rect.top ≤ rect.bottom) :
    (skeletonUi s rect t).shapes.all (shapeIn rect) = true ∧
      (fillUi rect).shapes.all (shapeIn rect) = true := by
  constructor
  · obtain ⟨b, hc, d, st⟩ := s
    cases st
    · simp [skeletonUi, shapeIn, posIn, List.all, le_fClamp, fClamp_le, hlr, htb, le_refl]
    · have h1 := min_le_left (rect.right - rect.left) (rect.bottom - rect.top)
      have h2 := min_le_right (rect.right - rect.left) (rect.bottom - rect.top)
      simp [skeletonUi, shapeIn, rectIn, Rect.from_center_size, Rect.center, vec2,
        Rect.width, Rect.height, List.all]
      and_intros <;> linarith
    · have h1 := min_le_left (rect.right - rect.left) (rect.bottom - rect.top)
      have h2 := min_le_right (rect.right - rect.left) (rect.bottom - rect.top)
      have h3 : (0 : ℚ) ≤ (rect.right - rect.left) ⊓ (rect.bottom - rect.top) :=
        le_min (by linarith) (by linarith)
      simp [skeletonUi, shapeIn, posIn, Rect.center, Rect.width, Rect.height, List.all]
      and_intros <;> linarith
  · simp only [fillUi, List.all, shapeIn, Bool.and_eq_true, List.all_nil]
    refine ⟨?_, trivial⟩
    rw [shapesIn_eq_true]
    intro sh hsh
    obtain ⟨lr, hmem, rfl⟩ := List.mem_map.mp hsh
    have hb := fillLineRects_bounds rect lr hmem
    simp [shapeIn, rectIn, hb.1, hb.2.1, hb.2.2.1, hb.2.2.2.2, hlr, htb]

/-- Witness for C4 at the region `(0,0)-(100,20)`, `t = 3/4`. -/
theorem C4_containment_witness :
    Rect.left ⟨0, 0, 100, 20⟩ ≤ Rect.right ⟨0, 0, 100, 20⟩ ∧
      Rect.top ⟨0, 0, 100, 20⟩ ≤ Rect.bottom ⟨0, 0, 100, 20⟩ ∧
      ((skeletonUi Skeleton.new ⟨0, 0, 100, 20⟩ (3 / 4)).shapes.all
          (shapeIn ⟨0, 0, 100, 20⟩) = true ∧
        (fillUi ⟨0, 0, 100, 20⟩).shapes.all (shapeIn ⟨0, 0, 100, 20⟩) = true) :=
  ⟨by norm_num, by norm_num,
    C4_containment Skeleton.new ⟨0, 0, 100, 20⟩ (3 / 4) (by norm_num) (by norm_num)⟩

/-- Counterexample to C4 as stated: at `t = 0` the phase is 0, the band
is fully off-screen-left, and both clamped cut-lines coincide with the
region's left edge: vertices 0 and 1 (top) and 4 and 5 (bottom) all sit
on the line x = 0, so the quad spanning left→x1 (triangles 0-1-5 and
0-5-4) is a zero-extent primitive, which the claim forbids. -/
theorem C4_counterexample :
    meshVertex (skeletonUi Skeleton.new ⟨0, 0, 100, 20⟩ 0) 0 =
        some ⟨⟨0, 0⟩, ⟨0, 0⟩, Color32.from_gray 200⟩ ∧
      meshVertex (skeletonUi Skeleton.new ⟨0, 0, 100, 20⟩ 0) 1 =
        some ⟨⟨0, 0⟩, ⟨0, 0⟩, Color32.from_gray 200⟩ ∧
      meshVertex (skeletonUi Skeleton.new ⟨0, 0, 100, 20⟩ 0) 4 =
        some ⟨⟨0, 20⟩, ⟨0, 0⟩, Color32.from_gray 200⟩ ∧
      meshVertex (skeletonUi Skeleton.new ⟨0, 0, 100, 20⟩ 0) 5 =
        some ⟨⟨0, 20⟩, ⟨0, 0⟩, Color32.from_gray 200⟩ := by
  have hφ : shimmer_phase 0 (3 / 2) = 0 := by
    unfold shimmer_phase fRem ratTrunc
    norm_num
  refine ⟨?_, ?_, ?_, ?_⟩ <;>
    · simp only [skeletonUi, Skeleton.new, Skeleton.default, meshVertex, hφ]
      norm_num [fClamp, Rect.width, min_def, max_def, Color32.from_gray]
